import Mathlib

/-!
Verification of the status-cache and channel-tree core of ts3status-rs.

The development shallowly embeds the two source files of the repository:

* `src/query.rs`: the `Client`/`ChannelNode`/`ServerInfo` data model, the
  recursive `ChannelNode::add_to_parent` insertion, the `channel_tree`
  builder, and the TTL-gated `fetch_status` cache refresh;
* `src/main.rs`: the JSON response assembly of the `status` HTTP handler.

Modelling conventions:

* `Instant` timestamps are whole seconds (`Nat`); `last_update.elapsed().as_secs()`
  becomes `now - last_update` with saturating `Nat` subtraction.
* The remote `ts3_query::QueryClient` is an oracle (`Collaborator`) fixing the
  outcome of each of the seven remote operations performed by one refresh.
* A Rust panic (a poisoned-lock `.expect`, or `HashMap` indexing with a missing
  key) is modelled by `none` in an `Option` result.
* `RwLock` acquisitions can fail (poisoning); `LockBehavior` fixes the outcome
  of each of the three acquisitions `fetch_status` performs.
-/

namespace Ts3Status

/-- Output client view; `Client` in `src/query.rs`. -/
structure Client where
  nickname : String
  country : String
  input_muted : Bool
  output_muted : Bool
  away : Bool
deriving Repr, DecidableEq

/-- Fields of `ts3_query::OnlineClientFull` that `src/query.rs` reads. -/
structure OnlineClientFull where
  cid : Nat
  client_type : Nat
  client_nickname : String
  client_country : String
  client_input_muted : Bool
  client_output_muted : Bool
  client_away : Bool
deriving Repr, DecidableEq

/-- The `From<&OnlineClientFull> for Client` conversion in `src/query.rs`. -/
def Client.fromFull (client : OnlineClientFull) : Client :=
  { nickname := client.client_nickname
    country := client.client_country
    input_muted := client.client_input_muted
    output_muted := client.client_output_muted
    away := client.client_away }

/-- Fields of `ts3_query::ChannelFull` that `src/query.rs` reads:
channel id, parent id, name. -/
structure ChannelFull where
  cid : Nat
  pid : Nat
  channel_name : String
deriving Repr, DecidableEq

/-- The recursive channel tree; `ChannelNode` in `src/query.rs`. -/
inductive ChannelNode where
  | mk (id : Nat) (name : String) (clients : List Client) (children : List ChannelNode)
deriving Repr

def ChannelNode.id : ChannelNode → Nat
  | .mk i _ _ _ => i

def ChannelNode.name : ChannelNode → String
  | .mk _ n _ _ => n

def ChannelNode.clients : ChannelNode → List Client
  | .mk _ _ cl _ => cl

def ChannelNode.children : ChannelNode → List ChannelNode
  | .mk _ _ _ ch => ch

mutual
/-- Decidable equality on trees, by mutual recursion with lists of trees. -/
def ChannelNode.beq : ChannelNode → ChannelNode → Bool
  | .mk i n cl ch, .mk i' n' cl' ch' =>
    i == i' && n == n' && cl == cl' && ChannelNode.beqList ch ch'

def ChannelNode.beqList : List ChannelNode → List ChannelNode → Bool
  | [], [] => true
  | c :: cs, d :: ds => c.beq d && ChannelNode.beqList cs ds
  | _, _ => false
end

mutual
/-- `ChannelNode::add_to_parent` from `src/query.rs`: if this node's id equals
`parent_id`, push a clone of `channel` onto its children; otherwise recurse
into every child. -/
def ChannelNode.add_to_parent : ChannelNode → Nat → ChannelNode → ChannelNode
  | .mk i n cl children, parent_id, channel =>
    if i = parent_id then .mk i n cl (children ++ [channel])
    else .mk i n cl (ChannelNode.addList children parent_id channel)

def ChannelNode.addList : List ChannelNode → Nat → ChannelNode → List ChannelNode
  | [], _, _ => []
  | c :: cs, parent_id, channel =>
    c.add_to_parent parent_id channel :: ChannelNode.addList cs parent_id channel
end

mutual
/-- Ids of all nodes of a tree, in preorder. -/
def ChannelNode.ids : ChannelNode → List Nat
  | .mk i _ _ children => i :: ChannelNode.idsList children

def ChannelNode.idsList : List ChannelNode → List Nat
  | [] => []
  | c :: cs => c.ids ++ ChannelNode.idsList cs
end

mutual
/-- Predicate holding at every node of a tree; the predicate sees the node's
id and client list (the data `add_to_parent` never rewrites). -/
def ChannelNode.allNodes (P : Nat → List Client → Prop) : ChannelNode → Prop
  | .mk i _ cl children => P i cl ∧ ChannelNode.allNodesList P children

def ChannelNode.allNodesList (P : Nat → List Client → Prop) : List ChannelNode → Prop
  | [] => True
  | c :: cs => ChannelNode.allNodes P c ∧ ChannelNode.allNodesList P cs
end

/-- Server metadata as returned by `raw::parse_hashmap`: a finite map from
keys to optional values, modelled as an association list. -/
def Metadata : Type := List (String × Option String)

/-- The `ChannelNode` literal built for one channel record inside the loop of
`channel_tree` (`src/query.rs`): clients are the input client records whose
type is 0 (regular voice client) and whose channel id matches. -/
def mkChannelNode (channel : ChannelFull) (clients : List OnlineClientFull) : ChannelNode :=
  .mk channel.cid channel.channel_name
    ((clients.filter fun c => c.client_type == 0 && c.cid == channel.cid).map Client.fromFull)
    []

/-- The synthetic root node with id 0 and name "Root" (`channel_tree`). -/
def root0 : ChannelNode := .mk 0 "Root" [] []

/-- The channel loop of `channel_tree`, started from an arbitrary tree: for
each record in order, build its node and insert it below its parent. -/
def buildFrom (t : ChannelNode) (channels : List ChannelFull)
    (clients : List OnlineClientFull) : ChannelNode :=
  channels.foldl
    (fun root channel => root.add_to_parent channel.pid (mkChannelNode channel clients)) t

/-- The channel loop of `channel_tree`, started from the synthetic root. -/
def buildRoot (channels : List ChannelFull) (clients : List OnlineClientFull) : ChannelNode :=
  buildFrom root0 channels clients

/-- The `ServerInfo` struct of `src/query.rs`. -/
structure ServerInfo where
  name : String
  version : String
  platform : String
  channels : List ChannelNode
deriving Repr

/-- `channel_tree` from `src/query.rs`. Rust indexes the metadata map with
`server_info["virtualserver_name"]` (and the version/platform keys), which
panics when the key is absent: the panic is modelled by `none`. A key mapped
to no value yields the empty string (`unwrap_or_default`). -/
def channel_tree (server_info : Metadata) (channels : List ChannelFull)
    (clients : List OnlineClientFull) : Option ServerInfo :=
  let root := buildRoot channels clients
  match server_info.lookup "virtualserver_name",
      server_info.lookup "virtualserver_version",
      server_info.lookup "virtualserver_platform" with
  | some n, some v, some p =>
    some { name := n.getD "", version := v.getD "", platform := p.getD ""
           channels := root.children }
  | _, _, _ => none

/-- `CACHE_LIFETIME` from `src/query.rs`: update server status every 20
seconds at the earliest. -/
def CACHE_LIFETIME : Nat := 20

/-- The `Config` struct of `src/main.rs`. -/
structure Config where
  ts3_host : String
  ts3_port : Nat
  ts3_server_id : Nat
  user : String
  password : String
deriving Repr, DecidableEq

/-- Opaque remote error value (`ts3_query::Ts3Error`); `msg` stands for its
debug representation. -/
structure Ts3Error where
  msg : String
deriving Repr, DecidableEq

/-- The `StatusCache` struct of `src/query.rs`: last refresh timestamp
(seconds) plus the last successfully built `ServerInfo`. -/
structure StatusCache where
  last_update : Nat
  server_info : ServerInfo
deriving Repr

/-- Oracle for the remote `QueryClient`: the outcome of each of the seven
remote operations one refresh attempt performs, in the order `fetch_status`
performs them (`QueryClient::new`, `login`, `select_server_by_id`, the
`serverinfo` raw command, `channels_full`, `online_clients_full`, `logout`). -/
structure Collaborator where
  connect : Except Ts3Error Unit
  login : Except Ts3Error Unit
  select_server_by_id : Except Ts3Error Unit
  serverinfo : Except Ts3Error Metadata
  channels_full : Except Ts3Error (List ChannelFull)
  online_clients_full : Except Ts3Error (List OnlineClientFull)
  logout : Except Ts3Error Unit

/-- Labels of the remote operations, for recording the invocation trace. -/
inductive CollabOp where
  | connect
  | login
  | selectServer
  | serverinfo
  | channelsFull
  | clientsFull
  | logout
deriving Repr, DecidableEq

/-- The full remote invocation sequence of one successful refresh attempt. -/
def fullQuerySeq : List CollabOp :=
  [.connect, .login, .selectServer, .serverinfo, .channelsFull, .clientsFull, .logout]

/-- Outcomes of the three lock acquisitions `fetch_status` performs: the
read lock before the staleness check, the write lock installing a refreshed
snapshot, and the read lock of the cache-hit branch. `true` means the
acquisition fails (lock poisoned). -/
structure LockBehavior where
  read1Fails : Bool
  writeFails : Bool
  read2Fails : Bool
deriving Repr, DecidableEq

/-- Result of one `fetch_status` call: the trace of remote operations
attempted, the cache state after the call, and the returned value —
`none` models a panic, `some` the `Result<ServerInfo, Ts3Error>`. -/
structure FetchOutcome where
  trace : List CollabOp
  cache : StatusCache
  result : Option (Except Ts3Error ServerInfo)
deriving Repr

/-- `fetch_status` from `src/query.rs`. `now` is the clock reading at the
staleness check (`last_update.elapsed()`), `done` the reading taken under the
write lock after a successful refresh (`Instant::now()`). The first read-lock
acquisition and the cache-hit read-lock acquisition go through `.expect`,
which panics on failure; a write-lock failure is logged and skipped, the
refreshed payload still being returned. Every fallible remote call uses `?`,
so the first failing operation aborts the refresh with its error and the
cache untouched. -/
def fetch_status (_cfg : Config) (locks : LockBehavior) (collab : Collaborator)
    (cache : StatusCache) (now done : Nat) : FetchOutcome :=
  if locks.read1Fails then ⟨[], cache, none⟩
  else if now - cache.last_update > CACHE_LIFETIME then
    match collab.connect with
    | .error e => ⟨[.connect], cache, some (.error e)⟩
    | .ok _ =>
    match collab.login with
    | .error e => ⟨[.connect, .login], cache, some (.error e)⟩
    | .ok _ =>
    match collab.select_server_by_id with
    | .error e => ⟨[.connect, .login, .selectServer], cache, some (.error e)⟩
    | .ok _ =>
    match collab.serverinfo with
    | .error e => ⟨[.connect, .login, .selectServer, .serverinfo], cache, some (.error e)⟩
    | .ok md =>
    match collab.channels_full with
    | .error e =>
      ⟨[.connect, .login, .selectServer, .serverinfo, .channelsFull], cache, some (.error e)⟩
    | .ok channels =>
    match collab.online_clients_full with
    | .error e =>
      ⟨[.connect, .login, .selectServer, .serverinfo, .channelsFull, .clientsFull],
        cache, some (.error e)⟩
    | .ok clients =>
    match collab.logout with
    | .error e => ⟨fullQuerySeq, cache, some (.error e)⟩
    | .ok _ =>
    match channel_tree md channels clients with
    | none => ⟨fullQuerySeq, cache, none⟩
    | some server_info =>
      if locks.writeFails then ⟨fullQuerySeq, cache, some (.ok server_info)⟩
      else ⟨fullQuerySeq, ⟨done, server_info⟩, some (.ok server_info)⟩
  else
    if locks.read2Fails then ⟨[], cache, none⟩
    else ⟨[], cache, some (.ok cache.server_info)⟩

/-- First error among the remote operations, in invocation order; `none`
when the whole remote sequence succeeds. -/
def firstFailure (c : Collaborator) : Option Ts3Error :=
  match c.connect with
  | .error e => some e
  | .ok _ =>
  match c.login with
  | .error e => some e
  | .ok _ =>
  match c.select_server_by_id with
  | .error e => some e
  | .ok _ =>
  match c.serverinfo with
  | .error e => some e
  | .ok _ =>
  match c.channels_full with
  | .error e => some e
  | .ok _ =>
  match c.online_clients_full with
  | .error e => some e
  | .ok _ =>
  match c.logout with
  | .error e => some e
  | .ok _ => none

/-- Number of remote operations one refresh attempt performs: the successful
ones plus the first failing one, 7 when all succeed. -/
def attemptLen (c : Collaborator) : Nat :=
  match c.connect with
  | .error _ => 1
  | .ok _ =>
  match c.login with
  | .error _ => 2
  | .ok _ =>
  match c.select_server_by_id with
  | .error _ => 3
  | .ok _ =>
  match c.serverinfo with
  | .error _ => 4
  | .ok _ =>
  match c.channels_full with
  | .error _ => 5
  | .ok _ =>
  match c.online_clients_full with
  | .error _ => 6
  | .ok _ => 7

/-- The JSON body assembled by the `status` handler in `src/main.rs`. -/
structure JsonResponse where
  success : Bool
  error : Option String
  server_info : Option ServerInfo
deriving Repr

/-- Debug formatting of a remote error (`format!("{:?}", e)`). -/
def formatDebug (e : Ts3Error) : String := e.msg

/-- Assembly of the `JsonResponse` in the `status` handler of `src/main.rs`:
`success = result.is_ok()`, `error = result.as_ref().map_err(..).err()`,
`server_info = result.ok()`. -/
def statusResponse (result : Except Ts3Error ServerInfo) : JsonResponse :=
  { success := match result with | .ok _ => true | .error _ => false
    error := match result with | .ok _ => none | .error e => some (formatDebug e)
    server_info := match result with | .ok si => some si | .error _ => none }

/-- Precondition of the amended uniqueness claim, checked along the exact
insertion order of the channel loop: each record's parent id is already an id
of the tree, and its own id is fresh. -/
def insertionOrderOk (clients : List OnlineClientFull) :
    ChannelNode → List ChannelFull → Bool
  | _, [] => true
  | t, c :: cs =>
    decide (c.pid ∈ t.ids) && decide (c.cid ∉ t.ids)
      && insertionOrderOk clients (t.add_to_parent c.pid (mkChannelNode c clients)) cs

/-- Provenance property of a node's client list: every client view comes
from an input record of type 0 whose channel id equals the node's id. -/
def voiceSourced (clients : List OnlineClientFull) : Nat → List Client → Prop :=
  fun i cl =>
    ∀ v ∈ cl, ∃ c ∈ clients, c.client_type = 0 ∧ c.cid = i ∧ Client.fromFull c = v

/-- `ServerInfo::default()`, used to initialize the cache in `build_state`. -/
def serverInfoDefault : ServerInfo := ⟨"", "", "", []⟩

/-- Example configuration for witnesses. -/
def cfgEx : Config := ⟨"localhost", 10011, 1, "serveradmin", "secret"⟩

/-- Example metadata map holding all three keys read by `channel_tree`;
the platform key is present but carries no value. -/
def metaEx : Metadata :=
  [("virtualserver_name", some "srv"),
   ("virtualserver_version", some "3.13.7"),
   ("virtualserver_platform", none)]

/-- The channel list of the tree-correctness example in the specification. -/
def chansEx : List ChannelFull := [⟨1, 0, "A"⟩, ⟨2, 1, "B"⟩, ⟨3, 0, "C"⟩]

/-- The client list of the tree-correctness example: one voice client "Bob"
in channel 2. -/
def clientsEx : List OnlineClientFull := [⟨2, 0, "Bob", "de", false, false, false⟩]

/-- The expected output view of "Bob". -/
def bobView : Client := ⟨"Bob", "de", false, false, false⟩

/-- Example cache state built at timestamp 0 with the default payload. -/
def cacheEx : StatusCache := ⟨0, serverInfoDefault⟩

/-- Collaborator whose seven operations all succeed, returning the example
metadata, channels and clients. -/
def collabEx : Collaborator :=
  ⟨.ok (), .ok (), .ok (), .ok metaEx, .ok chansEx, .ok clientsEx, .ok ()⟩

/-- Collaborator whose `login` call fails. -/
def collabLoginFail : Collaborator :=
  ⟨.ok (), .error ⟨"connection refused"⟩, .ok (), .ok metaEx, .ok chansEx,
    .ok clientsEx, .ok ()⟩

/-- Lock behavior where all three acquisitions succeed. -/
def locksOk : LockBehavior := ⟨false, false, false⟩

/-- The top-level children the tree builder produces on the example input. -/
def childrenEx : List ChannelNode :=
  [.mk 1 "A" [] [.mk 2 "B" [bobView] []], .mk 3 "C" [] []]

/-- The `ServerInfo` a refresh builds from the example collaborator data. -/
def siEx : ServerInfo := ⟨"srv", "3.13.7", "", childrenEx⟩

theorem ids_eq (t : ChannelNode) : t.ids = t.id :: ChannelNode.idsList t.children := by
  match t with
  | .mk i n cl children => rfl

theorem idsList_append (cs ds : List ChannelNode) :
    ChannelNode.idsList (cs ++ ds) = ChannelNode.idsList cs ++ ChannelNode.idsList ds := by
  induction cs with
  | nil => simp [ChannelNode.idsList]
  | cons c cs ih => simp [ChannelNode.idsList, ih]

theorem mkChannelNode_ids (c : ChannelFull) (clients : List OnlineClientFull) :
    (mkChannelNode c clients).ids = [c.cid] := rfl

mutual
theorem add_noop (t : ChannelNode) (pid : Nat) (ch : ChannelNode)
    (h : pid ∉ t.ids) : t.add_to_parent pid ch = t := by
  match t with
  | .mk i n cl children =>
    have hi : i ≠ pid := by
      intro he; exact h (he ▸ List.mem_cons_self _ _)
    have hc : pid ∉ ChannelNode.idsList children := by
      intro hm; exact h (List.mem_cons_of_mem _ hm)
    simp [ChannelNode.add_to_parent, hi, addList_noop children pid ch hc]

theorem addList_noop (cs : List ChannelNode) (pid : Nat) (ch : ChannelNode)
    (h : pid ∉ ChannelNode.idsList cs) : ChannelNode.addList cs pid ch = cs := by
  match cs with
  | [] => rfl
  | c :: cs' =>
    have h1 : pid ∉ c.ids := by
      intro hm; exact h (by simp only [ChannelNode.idsList, List.mem_append]; exact Or.inl hm)
    have h2 : pid ∉ ChannelNode.idsList cs' := by
      intro hm; exact h (by simp only [ChannelNode.idsList, List.mem_append]; exact Or.inr hm)
    simp [ChannelNode.addList, add_noop c pid ch h1, addList_noop cs' pid ch h2]
end

theorem add_to_parent_id (t : ChannelNode) (pid : Nat) (ch : ChannelNode) :
    (t.add_to_parent pid ch).id = t.id := by
  match t with
  | .mk i n cl children =>
    by_cases h : i = pid <;> simp [ChannelNode.add_to_parent, h, ChannelNode.id]

open List

mutual
theorem add_perm (t : ChannelNode) (pid : Nat) (ch : ChannelNode)
    (hnd : t.ids.Nodup) (hmem : pid ∈ t.ids) :
    (t.add_to_parent pid ch).ids.Perm (t.ids ++ ch.ids) := by
  match t with
  | .mk i n cl children =>
    by_cases hi : i = pid
    · simp only [ChannelNode.add_to_parent, if_pos hi, ChannelNode.ids, idsList_append]
      simp [ChannelNode.idsList]
    · have hmem' : pid ∈ ChannelNode.idsList children := by
        have h0 := hmem
        simp only [ChannelNode.ids, List.mem_cons] at h0
        rcases h0 with h | h
        · exact absurd h.symm hi
        · exact h
      have hnd' : (ChannelNode.idsList children).Nodup := by
        simp only [ChannelNode.ids, List.nodup_cons] at hnd
        exact hnd.2
      simp only [ChannelNode.add_to_parent, if_neg hi, ChannelNode.ids]
      have hp := addList_perm children pid ch hnd' hmem'
      simpa using hp.cons i

theorem addList_perm (cs : List ChannelNode) (pid : Nat) (ch : ChannelNode)
    (hnd : (ChannelNode.idsList cs).Nodup) (hmem : pid ∈ ChannelNode.idsList cs) :
    (ChannelNode.idsList (ChannelNode.addList cs pid ch)).Perm
      (ChannelNode.idsList cs ++ ch.ids) := by
  match cs with
  | [] => simp [ChannelNode.idsList] at hmem
  | c :: cs' =>
    simp only [ChannelNode.idsList, ChannelNode.addList] at hnd hmem ⊢
    rw [List.nodup_append] at hnd
    obtain ⟨hnd1, hnd2, hdisj⟩ := hnd
    rcases List.mem_append.mp hmem with h1 | h2
    · have h2 : pid ∉ ChannelNode.idsList cs' := fun hm => hdisj h1 hm
      rw [addList_noop cs' pid ch h2]
      have hc := add_perm c pid ch hnd1 h1
      calc (c.add_to_parent pid ch).ids ++ ChannelNode.idsList cs'
          ~ (c.ids ++ ch.ids) ++ ChannelNode.idsList cs' := hc.append_right _
        _ ~ (c.ids ++ ChannelNode.idsList cs') ++ ch.ids := by
            rw [List.append_assoc, List.append_assoc]
            exact List.Perm.append_left c.ids List.perm_append_comm
    · have h1 : pid ∉ c.ids := fun hm => hdisj hm h2
      rw [add_noop c pid ch h1]
      have hp := addList_perm cs' pid ch hnd2 h2
      calc c.ids ++ ChannelNode.idsList (ChannelNode.addList cs' pid ch)
          ~ c.ids ++ (ChannelNode.idsList cs' ++ ch.ids) :=
            List.Perm.append_left c.ids hp
        _ = (c.ids ++ ChannelNode.idsList cs') ++ ch.ids := (List.append_assoc _ _ _).symm
end

theorem buildFrom_cons (t : ChannelNode) (c : ChannelFull) (cs : List ChannelFull)
    (clients : List OnlineClientFull) :
    buildFrom t (c :: cs) clients
      = buildFrom (t.add_to_parent c.pid (mkChannelNode c clients)) cs clients := rfl

theorem buildFrom_id (clients : List OnlineClientFull) (channels : List ChannelFull) :
    ∀ t : ChannelNode, (buildFrom t channels clients).id = t.id := by
  induction channels with
  | nil => intro t; rfl
  | cons c cs ih =>
    intro t
    rw [buildFrom_cons, ih, add_to_parent_id]

theorem buildFrom_ids_perm (clients : List OnlineClientFull) (channels : List ChannelFull) :
    ∀ t : ChannelNode, t.ids.Nodup →
      insertionOrderOk clients t channels = true →
      (buildFrom t channels clients).ids.Perm (t.ids ++ channels.map ChannelFull.cid)
      ∧ (t.ids ++ channels.map ChannelFull.cid).Nodup := by
  induction channels with
  | nil =>
    intro t hnd _
    constructor
    · simp [buildFrom]
    · simpa using hnd
  | cons c cs ih =>
    intro t hnd h
    simp only [insertionOrderOk, Bool.and_eq_true, decide_eq_true_eq] at h
    obtain ⟨⟨hp, hc⟩, hrest⟩ := h
    have hperm1 : (t.add_to_parent c.pid (mkChannelNode c clients)).ids.Perm
        (t.ids ++ [c.cid]) := by
      have hq := add_perm t c.pid (mkChannelNode c clients) hnd hp
      simpa [mkChannelNode_ids] using hq
    have hnd1 : (t.ids ++ [c.cid]).Nodup := by
      simp [List.nodup_append, hnd, hc]
    have hnd' : (t.add_to_parent c.pid (mkChannelNode c clients)).ids.Nodup :=
      hperm1.nodup_iff.mpr hnd1
    obtain ⟨ihp, ihnd⟩ := ih _ hnd' hrest
    constructor
    · rw [buildFrom_cons]
      refine ihp.trans ?_
      refine (hperm1.append_right _).trans ?_
      simp [List.append_assoc]
    · have h2 := (hperm1.append_right (cs.map ChannelFull.cid)).nodup_iff.mp ihnd
      simpa [List.append_assoc] using h2

theorem allNodesList_append (P : Nat → List Client → Prop) (cs ds : List ChannelNode) :
    ChannelNode.allNodesList P (cs ++ ds)
      ↔ ChannelNode.allNodesList P cs ∧ ChannelNode.allNodesList P ds := by
  induction cs with
  | nil => simp [ChannelNode.allNodesList]
  | cons c cs ih => simp [ChannelNode.allNodesList, ih, and_assoc]

mutual
theorem allNodes_add (P : Nat → List Client → Prop) (t : ChannelNode) (pid : Nat)
    (ch : ChannelNode) (ht : ChannelNode.allNodes P t) (hch : ChannelNode.allNodes P ch) :
    ChannelNode.allNodes P (t.add_to_parent pid ch) := by
  match t with
  | .mk i n cl children =>
    simp only [ChannelNode.allNodes] at ht
    obtain ⟨hP, hrec⟩ := ht
    by_cases hi : i = pid
    · simp only [ChannelNode.add_to_parent, if_pos hi, ChannelNode.allNodes,
        allNodesList_append]
      exact ⟨hP, ⟨hrec, hch, trivial⟩⟩
    · simp only [ChannelNode.add_to_parent, if_neg hi, ChannelNode.allNodes]
      exact ⟨hP, allNodesList_add P children pid ch hrec hch⟩

theorem allNodesList_add (P : Nat → List Client → Prop) (cs : List ChannelNode)
    (pid : Nat) (ch : ChannelNode) (hcs : ChannelNode.allNodesList P cs)
    (hch : ChannelNode.allNodes P ch) :
    ChannelNode.allNodesList P (ChannelNode.addList cs pid ch) := by
  match cs with
  | [] => trivial
  | c :: cs' =>
    simp only [ChannelNode.allNodesList] at hcs
    simp only [ChannelNode.addList, ChannelNode.allNodesList]
    exact ⟨allNodes_add P c pid ch hcs.1 hch, allNodesList_add P cs' pid ch hcs.2 hch⟩
end

theorem allNodes_buildFrom (P : Nat → List Client → Prop) (clients : List OnlineClientFull)
    (channels : List ChannelFull)
    (hstep : ∀ c ∈ channels, ChannelNode.allNodes P (mkChannelNode c clients)) :
    ∀ t : ChannelNode, ChannelNode.allNodes P t →
      ChannelNode.allNodes P (buildFrom t channels clients) := by
  induction channels with
  | nil => intro t ht; simpa [buildFrom] using ht
  | cons c cs ih =>
    intro t ht
    rw [buildFrom_cons]
    exact ih (fun d hd => hstep d (List.mem_cons_of_mem _ hd)) _
      (allNodes_add P t c.pid _ ht (hstep c (List.mem_cons_self _ _)))

/-- C4: on channels `[(1,0,"A"), (2,1,"B"), (3,0,"C")]` and the single voice
client "Bob" in channel 2, the tree builder produces exactly two top-level
children: "A" with one child "B" holding exactly the client "Bob", and "C"
with no children and no clients. -/
theorem channel_tree_example_shape :
    (buildRoot chansEx clientsEx).children
      = [.mk 1 "A" [] [.mk 2 "B" [bobView] []], .mk 3 "C" [] []] := rfl

/-- C5: a channel record whose parent id matches no node of the tree built so
far (in particular one arriving before its parent) is silently dropped: the
build of the full list equals the build with the record removed, so the node
is never attached and no error is raised. -/
theorem orphan_channel_dropped (clients : List OnlineClientFull)
    (L1 L2 : List ChannelFull) (c : ChannelFull)
    (h : c.pid ∉ (buildFrom root0 L1 clients).ids) :
    buildFrom root0 (L1 ++ c :: L2) clients = buildFrom root0 (L1 ++ L2) clients := by
  simp only [buildFrom] at h ⊢
  simp only [List.foldl_append, List.foldl_cons]
  rw [add_noop _ _ _ h]

/-- Witness for C5: channel 2 declares the absent parent 5 and is dropped. -/
theorem orphan_channel_dropped_witness :
    (⟨2, 5, "B"⟩ : ChannelFull).pid ∉ (buildFrom root0 [] []).ids
    ∧ buildFrom root0 ([] ++ ⟨2, 5, "B"⟩ :: []) [] = buildFrom root0 ([] ++ []) [] :=
  ⟨by decide, orphan_channel_dropped [] [] [] ⟨2, 5, "B"⟩ (by decide)⟩

/-- Counterexample to C6: the id of an input channel whose parent is absent
appears zero times, not once, in the built tree; and a real input channel with
id 0 does appear among the emitted top-level channels. -/
theorem channel_ids_counterexample :
    (buildRoot [⟨2, 5, "B"⟩] []).ids.count 2 = 0
    ∧ 0 ∈ ChannelNode.idsList (buildRoot [⟨0, 0, "X"⟩] []).children := by decide

/-- C6 (amended): provided every channel record is processed with its parent
id already in the tree and its own id fresh (the `insertionOrderOk` check),
every input channel id appears in the built tree exactly once, and id 0 never
appears among the emitted channels (the synthetic root is not emitted). -/
theorem channel_id_unique_of_ordered (channels : List ChannelFull)
    (clients : List OnlineClientFull)
    (h : insertionOrderOk clients root0 channels = true) :
    (∀ ch ∈ channels, (buildRoot channels clients).ids.count ch.cid = 1)
    ∧ 0 ∉ ChannelNode.idsList (buildRoot channels clients).children := by
  have hnd0 : root0.ids.Nodup := by decide
  obtain ⟨hperm, hnd⟩ := buildFrom_ids_perm clients channels root0 hnd0 h
  have hperm' : (buildRoot channels clients).ids.Perm
      (0 :: channels.map ChannelFull.cid) := by
    simpa [root0, ChannelNode.ids, ChannelNode.idsList, buildRoot] using hperm
  have hnd' : (0 :: channels.map ChannelFull.cid).Nodup := by
    simpa [root0, ChannelNode.ids, ChannelNode.idsList] using hnd
  have h0notin : 0 ∉ channels.map ChannelFull.cid := (List.nodup_cons.mp hnd').1
  have hndmap : (channels.map ChannelFull.cid).Nodup := (List.nodup_cons.mp hnd').2
  constructor
  · intro ch hch
    have hmem : ch.cid ∈ channels.map ChannelFull.cid := List.mem_map_of_mem _ hch
    have hne : ch.cid ≠ 0 := fun he => h0notin (he ▸ hmem)
    rw [hperm'.count_eq, List.count_cons]
    simp [hne, Ne.symm hne, List.count_eq_one_of_mem hndmap hmem]
  · have hids : (buildRoot channels clients).ids
        = 0 :: ChannelNode.idsList (buildRoot channels clients).children := by
      rw [ids_eq]
      have hid := buildFrom_id clients channels root0
      simp only [buildRoot]
      rw [hid]
      rfl
    intro hmem0
    have hcount := hperm'.count_eq 0
    rw [hids] at hcount
    have hz : List.count 0 (channels.map ChannelFull.cid) = 0 :=
      List.count_eq_zero_of_not_mem h0notin
    have hpos : 0 < List.count 0
        (ChannelNode.idsList (buildRoot channels clients).children) :=
      List.count_pos_iff.mpr hmem0
    simp [List.count_cons, hz] at hcount
    omega

/-- Witness for C6 (amended): the example channel list satisfies the ordering
precondition, so its three ids each appear once and 0 is not emitted. -/
theorem channel_id_unique_of_ordered_witness :
    insertionOrderOk clientsEx root0 chansEx = true
    ∧ ((∀ ch ∈ chansEx, (buildRoot chansEx clientsEx).ids.count ch.cid = 1)
      ∧ 0 ∉ ChannelNode.idsList (buildRoot chansEx clientsEx).children) :=
  ⟨by decide, channel_id_unique_of_ordered chansEx clientsEx (by decide)⟩

/-- C7: every client view found in any node of the built tree comes from an
input record whose type discriminator is 0 (regular voice client) and whose
channel id equals exactly that node's id; hence non-voice records never
appear, and voice clients only on their own channel. -/
theorem clients_voice_only (channels : List ChannelFull)
    (clients : List OnlineClientFull) :
    ChannelNode.allNodes (voiceSourced clients) (buildRoot channels clients) := by
  unfold buildRoot
  refine allNodes_buildFrom _ clients channels ?_ root0 ?_
  · intro c _
    simp only [mkChannelNode, ChannelNode.allNodes, ChannelNode.allNodesList]
    refine ⟨?_, trivial⟩
    intro v hv
    simp only [List.mem_map, List.mem_filter, Bool.and_eq_true, beq_iff_eq] at hv
    obtain ⟨c', ⟨hc'mem, ht, hcid⟩, hview⟩ := hv
    exact ⟨c', hc'mem, ht, hcid, hview⟩
  · exact ⟨fun v hv => absurd hv (List.not_mem_nil v), trivial⟩

/-- C1: a call at a time within `CACHE_LIFETIME` of the build timestamp does
not invoke the remote collaborator (empty trace), returns a clone of the
cached `ServerInfo`, and leaves the cache unchanged. -/
theorem fetch_status_fresh_serves_cache (cfg : Config) (locks : LockBehavior)
    (collab : Collaborator) (cache : StatusCache) (now done : Nat)
    (hfresh : now - cache.last_update ≤ CACHE_LIFETIME)
    (hr1 : locks.read1Fails = false) (hr2 : locks.read2Fails = false) :
    fetch_status cfg locks collab cache now done
      = ⟨[], cache, some (.ok cache.server_info)⟩ := by
  have hnot : ¬ (now - cache.last_update > CACHE_LIFETIME) := by omega
  simp [fetch_status, hr1, hr2, hnot]

/-- Witness for C1 at a concrete fresh cache state. -/
theorem fetch_status_fresh_serves_cache_witness :
    10 - cacheEx.last_update ≤ CACHE_LIFETIME
    ∧ fetch_status cfgEx locksOk collabEx cacheEx 10 11
        = ⟨[], cacheEx, some (.ok cacheEx.server_info)⟩ :=
  ⟨by decide,
    fetch_status_fresh_serves_cache cfgEx locksOk collabEx cacheEx 10 11 (by decide) rfl rfl⟩

/-- C2: a stale call performs exactly one remote invocation sequence — its
trace is the prefix of `connect, login, …, logout` ending at the first failing
operation, and is the whole sequence when every operation succeeds — and the
cached timestamp changes only to the completion time `done` and only when the
attempt succeeded. -/
theorem fetch_status_stale_single_attempt (cfg : Config) (locks : LockBehavior)
    (collab : Collaborator) (cache : StatusCache) (now done : Nat)
    (hstale : now - cache.last_update > CACHE_LIFETIME)
    (hr1 : locks.read1Fails = false) :
    (fetch_status cfg locks collab cache now done).trace
        = fullQuerySeq.take (attemptLen collab)
    ∧ (firstFailure collab = none →
        (fetch_status cfg locks collab cache now done).trace = fullQuerySeq)
    ∧ ((fetch_status cfg locks collab cache now done).cache.last_update
          ≠ cache.last_update →
        firstFailure collab = none
        ∧ (fetch_status cfg locks collab cache now done).cache.last_update = done) := by
  obtain ⟨cn, lg, ss, md, chf, clf, lo⟩ := collab
  rcases cn with e | ⟨⟩
  · simp [fetch_status, hstale, hr1, attemptLen, firstFailure, fullQuerySeq]
  rcases lg with e | ⟨⟩
  · simp [fetch_status, hstale, hr1, attemptLen, firstFailure, fullQuerySeq]
  rcases ss with e | ⟨⟩
  · simp [fetch_status, hstale, hr1, attemptLen, firstFailure, fullQuerySeq]
  rcases md with e | md
  · simp [fetch_status, hstale, hr1, attemptLen, firstFailure, fullQuerySeq]
  rcases chf with e | chf
  · simp [fetch_status, hstale, hr1, attemptLen, firstFailure, fullQuerySeq]
  rcases clf with e | clf
  · simp [fetch_status, hstale, hr1, attemptLen, firstFailure, fullQuerySeq]
  rcases lo with e | ⟨⟩
  · simp [fetch_status, hstale, hr1, attemptLen, firstFailure, fullQuerySeq]
  rcases htree : channel_tree md chf clf with _ | si
  · simp [fetch_status, hstale, hr1, attemptLen, firstFailure, fullQuerySeq, htree]
  cases hw : locks.writeFails
  · simp [fetch_status, hstale, hr1, attemptLen, firstFailure, fullQuerySeq, htree, hw]
  · simp [fetch_status, hstale, hr1, attemptLen, firstFailure, fullQuerySeq, htree, hw]

/-- Witness for C2 at a concrete stale call whose `login` fails. -/
theorem fetch_status_stale_single_attempt_witness :
    21 - cacheEx.last_update > CACHE_LIFETIME
    ∧ ((fetch_status cfgEx locksOk collabLoginFail cacheEx 21 22).trace
          = fullQuerySeq.take (attemptLen collabLoginFail)
      ∧ (firstFailure collabLoginFail = none →
          (fetch_status cfgEx locksOk collabLoginFail cacheEx 21 22).trace = fullQuerySeq)
      ∧ ((fetch_status cfgEx locksOk collabLoginFail cacheEx 21 22).cache.last_update
            ≠ cacheEx.last_update →
          firstFailure collabLoginFail = none
          ∧ (fetch_status cfgEx locksOk collabLoginFail cacheEx 21 22).cache.last_update
              = 22)) :=
  ⟨by decide,
    fetch_status_stale_single_attempt cfgEx locksOk collabLoginFail cacheEx 21 22
      (by decide) rfl⟩

/-- C3: when any remote operation of a refresh fails, `fetch_status` returns
exactly that error, and the cache (snapshot and timestamp) after the call is
the cache before the call. -/
theorem fetch_status_error_preserves_cache (cfg : Config) (locks : LockBehavior)
    (collab : Collaborator) (cache : StatusCache) (now done : Nat) (e : Ts3Error)
    (hstale : now - cache.last_update > CACHE_LIFETIME)
    (hr1 : locks.read1Fails = false)
    (hfail : firstFailure collab = some e) :
    (fetch_status cfg locks collab cache now done).result = some (.error e)
    ∧ (fetch_status cfg locks collab cache now done).cache = cache := by
  obtain ⟨cn, lg, ss, md, chf, clf, lo⟩ := collab
  rcases cn with e' | ⟨⟩
  · simp only [firstFailure, Option.some.injEq] at hfail
    subst hfail
    simp [fetch_status, hstale, hr1]
  rcases lg with e' | ⟨⟩
  · simp only [firstFailure, Option.some.injEq] at hfail
    subst hfail
    simp [fetch_status, hstale, hr1]
  rcases ss with e' | ⟨⟩
  · simp only [firstFailure, Option.some.injEq] at hfail
    subst hfail
    simp [fetch_status, hstale, hr1]
  rcases md with e' | md
  · simp only [firstFailure, Option.some.injEq] at hfail
    subst hfail
    simp [fetch_status, hstale, hr1]
  rcases chf with e' | chf
  · simp only [firstFailure, Option.some.injEq] at hfail
    subst hfail
    simp [fetch_status, hstale, hr1]
  rcases clf with e' | clf
  · simp only [firstFailure, Option.some.injEq] at hfail
    subst hfail
    simp [fetch_status, hstale, hr1]
  rcases lo with e' | ⟨⟩
  · simp only [firstFailure, Option.some.injEq] at hfail
    subst hfail
    simp [fetch_status, hstale, hr1]
  · simp [firstFailure] at hfail

/-- Witness for C3 at a concrete call whose `login` fails. -/
theorem fetch_status_error_preserves_cache_witness :
    firstFailure collabLoginFail = some ⟨"connection refused"⟩
    ∧ ((fetch_status cfgEx locksOk collabLoginFail cacheEx 21 22).result
          = some (.error ⟨"connection refused"⟩)
      ∧ (fetch_status cfgEx locksOk collabLoginFail cacheEx 21 22).cache = cacheEx) :=
  ⟨rfl,
    fetch_status_error_preserves_cache cfgEx locksOk collabLoginFail cacheEx 21 22
      ⟨"connection refused"⟩ (by decide) rfl rfl⟩

/-- Counterexample to C9: a failed read-lock acquisition is not handled
locally — `fetch_status` goes through `.expect`, modelled by a `none` result,
i.e. the call panics instead of serving the cached snapshot. -/
theorem readlock_failure_panics :
    (fetch_status cfgEx ⟨true, false, false⟩ collabEx cacheEx 0 0).result = none := rfl

/-- C9 (amended): only a failed write-lock acquisition is handled locally —
the refresh result is still returned as success and the cache is simply left
unchanged, with no error surfaced; a failed read-lock acquisition panics. -/
theorem writelock_failure_handled (cfg : Config) (r2 : Bool) (collab : Collaborator)
    (cache : StatusCache) (now done : Nat) (md : Metadata)
    (channels : List ChannelFull) (clients : List OnlineClientFull) (si : ServerInfo)
    (hstale : now - cache.last_update > CACHE_LIFETIME)
    (h1 : collab.connect = .ok ()) (h2 : collab.login = .ok ())
    (h3 : collab.select_server_by_id = .ok ()) (h4 : collab.serverinfo = .ok md)
    (h5 : collab.channels_full = .ok channels)
    (h6 : collab.online_clients_full = .ok clients)
    (h7 : collab.logout = .ok ())
    (htree : channel_tree md channels clients = some si) :
    fetch_status cfg ⟨false, true, r2⟩ collab cache now done
      = ⟨fullQuerySeq, cache, some (.ok si)⟩ := by
  simp [fetch_status, hstale, h1, h2, h3, h4, h5, h6, h7, htree]

/-- Witness for C9 (amended) at a concrete refresh with a failing write lock. -/
theorem writelock_failure_handled_witness :
    21 - cacheEx.last_update > CACHE_LIFETIME
    ∧ fetch_status cfgEx ⟨false, true, false⟩ collabEx cacheEx 21 22
        = ⟨fullQuerySeq, cacheEx, some (.ok siEx)⟩ :=
  ⟨by decide,
    writelock_failure_handled cfgEx false collabEx cacheEx 21 22 metaEx chansEx
      clientsEx siEx (by decide) rfl rfl rfl rfl rfl rfl rfl rfl⟩

/-- C8: the JSON body pairs its fields exhaustively with the outcome — an
error yields `success = false`, a message string and no payload; a success
yields `success = true`, a payload and no error. -/
theorem statusResponse_exclusive (result : Except Ts3Error ServerInfo) :
    statusResponse result
      = match result with
        | .error e => ⟨false, some (formatDebug e), none⟩
        | .ok si => ⟨true, none, some si⟩ := by
  cases result <;> rfl

/-- C10: `channel_tree` is total exactly under the precondition that the
metadata map holds the three virtualserver keys — then it returns the
`ServerInfo` with empty strings substituted for valueless keys — while a map
missing a key (here the empty map) makes it panic via direct indexing,
modelled by `none`. -/
theorem channel_tree_requires_keys :
    (∀ (server_info : Metadata) (channels : List ChannelFull)
        (clients : List OnlineClientFull) (n v p : Option String),
        server_info.lookup "virtualserver_name" = some n →
        server_info.lookup "virtualserver_version" = some v →
        server_info.lookup "virtualserver_platform" = some p →
        channel_tree server_info channels clients
          = some ⟨n.getD "", v.getD "", p.getD "",
              (buildRoot channels clients).children⟩)
    ∧ channel_tree [] [] [] = none := by
  constructor
  · intro si chs cls n v p h1 h2 h3
    simp [channel_tree, h1, h2, h3]
  · rfl

/-- Witness for C10 on the example metadata map holding all three keys. -/
theorem channel_tree_requires_keys_witness :
    metaEx.lookup "virtualserver_name" = some (some "srv")
    ∧ channel_tree metaEx chansEx clientsEx
        = some ⟨(some "srv").getD "", (some "3.13.7").getD "",
            (none : Option String).getD "", (buildRoot chansEx clientsEx).children⟩ :=
  ⟨rfl, channel_tree_requires_keys.1 metaEx chansEx clientsEx _ _ _ rfl rfl rfl⟩

end Ts3Status
